import Mathlib

/-!
Verification development for the residential calibration engine.

Shallow embedding of the core calibration components:
* `src/core/bayesian_optimizer.py`   (Parameter, BayesianOptimizer)
* `src/analysis/building_stock_aggregator.py` (BuildingStockAggregator)
* `src/analysis/validation_system.py` (ValidationSystem)
* `src/simulation/results_manager.py` (ResultsManager._process_results_file)
* `src/core/calibration_manager.py`  (CalibrationManager.run_calibration_campaign)

Numeric values of the Python code are modelled with `ℚ` where the code only
does field arithmetic and comparisons, and with `ℝ` where it takes square
roots (`np.sqrt`).  Randomness (`np.random.normal`, Latin-Hypercube unit
samples) and the Gaussian-Process posterior (`gp.predict`, `norm.cdf`,
`norm.pdf`) are modelled as oracle inputs: the Python functions receive those
values from numpy/sklearn, and every theorem below quantifies over them.
-/

/-- Model of `np.clip(value, low, high)`: `min (max value low) high`
(numpy clips to `low` first, then to `high`; for `low > high` the result is
`high`, matching numpy). -/
def clip (x lo hi : ℚ) : ℚ := min (max x lo) hi

/-- Model of the `Parameter` dataclass of `src/core/bayesian_optimizer.py`
(lines 10-25).  The fields `hpxml_path`, `transform`, `description`, `unit`
are metadata that no computation in the calibrated core reads; they are
omitted.  `range` is split into `lo`/`hi`. -/
structure Parameter where
  name : String
  lo : ℚ
  hi : ℚ
  prior_mean : ℚ
  prior_std : ℚ

/-- Model of `Parameter.sample` (lines 22-25):
`value = np.random.normal(self.prior_mean, self.prior_std)` followed by
`np.clip(value, self.range[0], self.range[1])`.  The normal draw is an
arbitrary real number supplied by the `draw` oracle argument. -/
def Parameter.sample (p : Parameter) (draw : ℚ) : ℚ := clip draw p.lo p.hi

/-- The concrete parameter space declared in `BayesianOptimizer.__init__`
(lines 30-71), with the exact numeric bounds and priors of the source. -/
def bayesianParameters : List Parameter :=
  [ { name := "heating_system_efficiency", lo := 90/100, hi := 95/100,
      prior_mean := 92/100, prior_std := 1/100 },
    { name := "air_leakage_value", lo := 3, hi := 4,
      prior_mean := 35/10, prior_std := 2/10 },
    { name := "heating_setpoint", lo := 19, hi := 21,
      prior_mean := 20, prior_std := 5/10 },
    { name := "cooling_setpoint", lo := 24, hi := 26,
      prior_mean := 25, prior_std := 5/10 },
    { name := "wall_assembly_r", lo := 25/10, hi := 45/10,
      prior_mean := 35/10, prior_std := 3/10 } ]

/-- Oracle for everything the GP branch of `suggest_parameters` obtains from
sklearn/scipy: the posterior mean `mu` and standard deviation `sigma` at each
candidate-grid row, the standard normal `cdf` and `pdf`, and whether the
`try:` block raises (`raises = true` models any exception inside the GP
prediction / candidate search). -/
structure GPOracle where
  mu : ℕ → ℚ
  sigma : ℕ → ℚ
  cdf : ℚ → ℚ
  pdf : ℚ → ℚ
  raises : Bool

/-- Model of `np.min` / Python `min` on a list that the code only ever calls
on non-empty lists (numpy raises on an empty array; the value on `[]` here is
an arbitrary default that no theorem relies on). -/
def minD (xs : List ℚ) : ℚ := xs.foldl min (xs.headD 0)

/-- Model of `np.max` on a non-empty list (same convention as `minD`). -/
def maxD (xs : List ℚ) : ℚ := xs.foldl max (xs.headD 0)

/-- Auxiliary loop for `idxOfMax`: carries the best index, best value and the
index of the next element.  An element replaces the incumbent only when it is
strictly larger, so the first occurrence of the maximum wins, exactly as
`np.argmax`. -/
def idxOfMaxAux : ℕ → ℚ → ℕ → List ℚ → ℕ
  | best, _, _, [] => best
  | best, bv, i, x :: xs =>
    if bv < x then idxOfMaxAux i x (i + 1) xs else idxOfMaxAux best bv (i + 1) xs

/-- Model of `np.argmax`: index of the first occurrence of the maximum
(0 on the empty list, which numpy rejects; no theorem uses that case). -/
def idxOfMax : List ℚ → ℕ
  | [] => 0
  | x :: xs => idxOfMaxAux 0 x 1 xs

/-- Model of `BayesianOptimizer._random_sample` (lines 167-172): one prior
draw per parameter, clipped to bounds.  The initial-exploration branch of
`suggest_parameters` (lines 86-90) is the identical per-parameter
comprehension. -/
def randomSample (draws : String → ℚ) : List (String × ℚ) :=
  bayesianParameters.map (fun p => (p.name, p.sample (draws p.name)))

/-- Model of `BayesianOptimizer._create_parameter_grid` (lines 152-165) for
one Latin-Hypercube row: `grid[:, i] = grid[:, i] * (high - low) + low`,
applied to the unit sample `u ∈ [0, 1)` of each coordinate. -/
def scaleRow (row : List ℚ) : List ℚ :=
  (row.zip bayesianParameters).map (fun up => up.1 * (up.2.hi - up.2.lo) + up.2.lo)

/-- The scaled candidate grid: `units` is the raw Latin-Hypercube output
(`sampler.random(n=n_points)`, entries in `[0, 1)`), one inner list per
candidate row. -/
def createParameterGrid (units : List (List ℚ)) : List (List ℚ) :=
  units.map scaleRow

/-- Expected-Improvement scores of `suggest_parameters` (lines 99-103):
`improvement = best_f - mu`, `z = improvement / (sigma + 1e-9)`,
`ei = improvement * norm.cdf(z) + sigma * norm.pdf(z)`, one score per
candidate row. -/
def eiScores (g : GPOracle) (bestf : ℚ) (n : ℕ) : List ℚ :=
  (List.range n).map (fun i =>
    let improvement := bestf - g.mu i
    let z := improvement / (g.sigma i + 1/1000000000)
    improvement * g.cdf z + g.sigma i * g.pdf z)

/-- Model of `BayesianOptimizer.suggest_parameters` (lines 84-116).
State: `X` (evaluated points) and `y` (observed scores).  Oracles: `draws`
(the prior normal draw per parameter name), `units` (the Latin-Hypercube unit
samples) and `g` (the GP posterior plus the exception flag of the `try:`
block).  Branches, in source order: initial exploration when fewer than 3
observations; the `except` fallback to `_random_sample`; the GP /
Expected-Improvement candidate search returning the argmax grid row as a
name-keyed mapping. -/
def suggest_parameters (X : List (List ℚ)) (y : List ℚ) (draws : String → ℚ)
    (units : List (List ℚ)) (g : GPOracle) : List (String × ℚ) :=
  if X.length < 3 then
    randomSample draws
  else if g.raises then
    randomSample draws
  else
    let grid := createParameterGrid units
    let ei := eiScores g (minD y) grid.length
    let bestIdx := idxOfMax ei
    (bayesianParameters.map (fun p => p.name)).zip (grid.getD bestIdx [])

/-- Mean of a list (`np.mean` on a non-empty list; on `[]` numpy yields NaN
while this model yields `0` by `x / 0 = 0` — no theorem applies it to `[]`). -/
def listMean (xs : List ℚ) : ℚ := xs.sum / xs.length

/-- Population variance, i.e. the square of `np.std` (default `ddof=0`).
The code compares `np.std(xs) < t` with `t ≥ 0`; since both sides are
non-negative this is equivalent to `popVar xs < t ^ 2`, which is the form the
model uses to stay inside `ℚ`. -/
def popVar (xs : List ℚ) : ℚ :=
  ((xs.map (fun x => (x - listMean xs) ^ 2)).sum) / xs.length

/-- Column `j` of a list of parameter vectors (`np.std(recent_params, axis=0)`
works column-wise; vectors produced by `update` all have one entry per
declared parameter). -/
def column (vs : List (List ℚ)) (j : ℕ) : List ℚ := vs.map (fun v => v.getD j 0)

/-- Model of `BayesianOptimizer.check_convergence` (lines 133-150).
`np.std s < 0.01` is rendered as `popVar s < 0.01 ^ 2` (see `popVar`).
`y[-3:]` is `y.drop (y.length - 3)`, `y[:-3]` is `y.take (y.length - 3)`. -/
def check_convergence (X : List (List ℚ)) (y : List ℚ) : Bool :=
  if X.length < 5 then false
  else
    let recentScores := y.drop (y.length - 3)
    let scoreStable := decide (popVar recentScores < (1/100) ^ 2)
    let recentParams := X.drop (X.length - 3)
    let d := (recentParams.headD []).length
    let paramsStable :=
      (List.range d).all (fun j => decide (popVar (column recentParams j) < (1/100) ^ 2))
    let improving :=
      if 3 < y.length then
        decide (minD recentScores < minD (y.take (y.length - 3)))
      else true
    scoreStable && paramsStable && !improving

/-- Model of `BayesianOptimizer.update` (lines 118-131) restricted to its
observable effect on the observation history: append the parameter vector (in
declaration order of the parameter space) to `X` and the score to `y`.  The
GP refit touches only the fitted-model cache, not the history. -/
def optimizerUpdate (X : List (List ℚ)) (y : List ℚ)
    (params : List (String × ℚ)) (score : ℚ) : List (List ℚ) × List ℚ :=
  (X ++ [bayesianParameters.map (fun p => ((params.lookup p.name).getD 0))], y ++ [score])

/-- A row of `selected_archetypes.csv` as used by the weight computation:
only `filename` and `houseSubType` are read (lines 76-98 of
`building_stock_aggregator.py`). -/
structure Archetype where
  filename : String
  houseSubType : String

/-- The fixed `inverse_mapping` of
`BuildingStockAggregator.calculate_provincial_weights` (lines 57-63):
physical-type class to the list of archetype sub-types it covers. -/
def inverseMapping : List (String × List String) :=
  [ ("Détaché", ["Single Detached", "Detached Duplex", "Detached Triplex", "Mobile Home"]),
    ("Jumelé", ["Double/Semi-detached"]),
    ("En rangée 1 côté", ["Row house, end unit"]),
    ("En rangée plus de 1 côté", ["Row house, middle unit"]),
    ("Intégré", ["Apartment"]) ]

/-- First main type whose sub-type list contains `sub` — the
`for main_type, subtypes in inverse_mapping.items(): if subtype in subtypes:
... break` search of lines 79-84 and 90-91; `none` when the loop falls
through without a match. -/
def findMainType (sub : String) : Option String :=
  (inverseMapping.find? (fun mc => mc.2.contains sub)).map (fun mc => mc.1)

/-- `type_counts = residential_data['lien_physique_description'].value_counts()`
(line 66) together with the `type_counts.get(main_type, 0)` lookup (line 92):
the number of reference-population rows whose class value is `c`.
`residential` is the column of class values. -/
def typeCount (residential : List String) (c : String) : ℕ := residential.count c

/-- The `archetype_counts` dictionary built by the first pass (lines 75-84):
how many selected archetypes map to class `c` (each archetype increments the
counter of the first class whose sub-type list matches, which is the class
`findMainType` returns). -/
def archCount (sel : List Archetype) (c : String) : ℕ :=
  (sel.filterMap (fun a => findMainType a.houseSubType)).count c

/-- Python `dict` assignment `d[k] = v`: overwrite in place when the key
exists, append otherwise. -/
def insertOverwrite (d : List (String × ℚ)) (k : String) (v : ℚ) : List (String × ℚ) :=
  if d.any (fun kv => kv.1 = k) then
    d.map (fun kv => if kv.1 = k then (k, v) else kv)
  else d ++ [(k, v)]

/-- The weight the second pass (lines 87-107) assigns to one archetype:
`type_counts.get(main_type, 0) / archetype_counts[main_type]` when the class
has archetypes, `0` otherwise; `0` also stands for the unreachable no-class
case (the source assigns nothing there, see `calcWeights`). -/
def weightOfArch (sel : List Archetype) (residential : List String) (a : Archetype) : ℚ :=
  match findMainType a.houseSubType with
  | some mt =>
    if 0 < archCount sel mt then
      (typeCount residential mt : ℚ) / (archCount sel mt : ℚ)
    else 0
  | none => 0

/-- One pass of the weight-assignment loop (lines 87-107 of
`building_stock_aggregator.py`): for an archetype whose sub-type matches a
class, assign `self.archetype_weights[archetype['filename']]` the class
population count divided by the number of archetypes of that class (or `0`
when the guard `n_archetypes > 0` fails); an archetype with no matching class
leaves the dictionary unchanged (the inner `for` ends without `break` and
assigns nothing). -/
def weightStep (sel : List Archetype) (residential : List String)
    (d : List (String × ℚ)) (a : Archetype) : List (String × ℚ) :=
  match findMainType a.houseSubType with
  | none => d
  | some mt =>
    if 0 < archCount sel mt then
      insertOverwrite d a.filename
        ((typeCount residential mt : ℚ) / (archCount sel mt : ℚ))
    else insertOverwrite d a.filename 0

/-- Model of the weight-building loop of
`BuildingStockAggregator.calculate_provincial_weights` (lines 86-107): fold
`weightStep` over the selected archetypes, starting from the empty
`self.archetype_weights = {}` of line 72. -/
def calcWeights (sel : List Archetype) (residential : List String) : List (String × ℚ) :=
  sel.foldl (weightStep sel residential) []

/-- Sum of the values of the weights dictionary
(`weights_series.sum()`, line 118). -/
def sumWeights (d : List (String × ℚ)) : ℚ := (d.map (fun kv => kv.2)).sum

/-- Model of `pandas.DataFrame.add(other, fill_value=0)` on two hourly
series sharing the same hourly index: element-wise sum, with positions
present in only one operand kept as-is (filled with 0). -/
def addFill : List ℚ → List ℚ → List ℚ
  | [], ys => ys
  | x :: xs, [] => x :: xs
  | x :: xs, y :: ys => (x + y) :: addFill xs ys

/-- The per-archetype loop of
`BuildingStockAggregator.aggregate_provincial_results` (lines 187-221).
`res name` is the outcome of locating and loading
`{arch_base}_processed.csv`: `none` models a missing file (`continue` at
line 196) or a load/processing exception (`continue` at line 221), `some s`
the loaded hourly series.  The accumulator is
(`provincial_results`, `processed_count`). -/
def aggLoop (res : String → Option (List ℚ)) :
    List (String × ℚ) → Option (List ℚ) → ℕ → Option (List ℚ) × ℕ
  | [], acc, c => (acc, c)
  | (n, w) :: rest, acc, c =>
    match res n with
    | none => aggLoop res rest acc c
    | some s =>
      let weighted := s.map (fun x => x * w)
      match acc with
      | none => aggLoop res rest (some weighted) (c + 1)
      | some p => aggLoop res rest (some (addFill p weighted)) (c + 1)

/-- Model of `BuildingStockAggregator.aggregate_provincial_results`
(lines 171-250) given the weights table and the per-archetype load outcomes:
returns the aggregated series together with the metadata triple
(`processed_archetypes`, `total_archetypes`, `success_rate`), or `none` when
no archetype could be processed (the `return False` at line 246).  The
metadata follows lines 235-237: `success_rate` is
`(processed_count / len(self.archetype_weights)) * 100`. -/
def aggregate_provincial_results (weights : List (String × ℚ))
    (res : String → Option (List ℚ)) : Option (List ℚ × ℕ × ℕ × ℚ) :=
  match aggLoop res weights none 0 with
  | (none, _) => none
  | (some p, c) => some (p, c, weights.length, ((c : ℚ) / (weights.length : ℚ)) * 100)

/-- The weighted series of the archetypes whose output is available, in
table order — the reference description of what `aggLoop` accumulates. -/
def weightedAvailable (weights : List (String × ℚ))
    (res : String → Option (List ℚ)) : List (List ℚ) :=
  weights.filterMap (fun nw => (res nw.1).map (fun s => s.map (fun x => x * nw.2)))

/-- Specification-side restatement of the aggregation (amended form of the
spec's `aggregate` contract): sum exactly the available weighted series,
count them, and report the success rate as a percentage. -/
def aggregateSpecification (weights : List (String × ℚ))
    (res : String → Option (List ℚ)) : Option (List ℚ × ℕ × ℕ × ℚ) :=
  match weightedAvailable weights res with
  | [] => none
  | a :: rest =>
    some (rest.foldl addFill a, (weightedAvailable weights res).length,
      weights.length, (((weightedAvailable weights res).length : ℚ) / (weights.length : ℚ)) * 100)

/-- The `while len(result_df) < 8760` padding loop of
`ResultsManager._process_results_file` (lines 219-224): repeatedly append the
last row (`result_df.iloc[-1]`) until the series reaches 8760 entries.  On an
empty series the source raises (`result_df.index[-1]`) and the caller
receives `None`; the `getLastD _ 0` default is never exercised by any theorem
(they all require a non-empty series). -/
def padToTarget (s : List ℚ) : List ℚ :=
  if s.length < 8760 then padToTarget (s ++ [s.getLastD 0]) else s
termination_by 8760 - s.length
decreasing_by simp_all; omega

/-- Model of the length-normalization step of
`ResultsManager._process_results_file` (lines 213-226): a series of exactly
8760 rows is returned unchanged, a longer one is truncated
(`result_df[:8760]`), a shorter one is padded by repeating the last row. -/
def normalizeHours (s : List ℚ) : List ℚ :=
  if s.length = 8760 then s
  else if 8760 < s.length then s.take 8760
  else padToTarget s

/-- Month (1-12) of the day at offset `day` from 2000-01-01, the epoch of the
synthetic hourly index `pd.date_range(start='2000-01-01', freq='h')` that
`ValidationSystem.calculate_metrics` puts on both series (lines 112-113).
2000 is a leap year; the 4-year cycle 2000-2003 (1461 days) repeats, which
agrees with the civil calendar until 2100 — far beyond any series length the
system handles (one year of hours). -/
def monthOfDay (day : ℕ) : ℕ :=
  let d := day % 1461
  let leap := [31, 29, 31, 30, 31, 30, 31, 31, 30, 31, 30, 31]
  let nonleap := [31, 28, 31, 30, 31, 30, 31, 31, 30, 31, 30, 31]
  let rec walk : ℕ → ℕ → List ℕ → ℕ
    | _, m, [] => m
    | r, m, len :: rest => if r < len then m else walk (r - len) (m + 1) rest
  if d < 366 then walk d 1 leap
  else if d < 731 then walk (d - 366) 1 nonleap
  else if d < 1096 then walk (d - 731) 1 nonleap
  else walk (d - 1096) 1 nonleap

/-- Month of hour `i` of the synthetic hourly index. -/
def monthOfHour (i : ℕ) : ℕ := monthOfDay (i / 24)

/-- Mean of a list of reals; `np.mean` / `pandas.Series.mean` on the
non-empty lists the code feeds it (`x / 0 = 0` covers `[]`, which pandas
would turn into NaN — no claim exercises that case). -/
noncomputable def meanR (xs : List ℝ) : ℝ := xs.sum / xs.length

/-- Largest element of a non-empty list of reals (`hydro_data.max()`). -/
noncomputable def maxR (xs : List ℝ) : ℝ := xs.foldl max (xs.headD 0)

/-- Smallest element of a non-empty list of reals (`hydro_data.min()`). -/
noncomputable def minR (xs : List ℝ) : ℝ := xs.foldl min (xs.headD 0)

/-- Positions of `l` whose synthetic-index month lies in `months` — the
boolean masks `hydro_series.index.month.isin([...])` of lines 124-125 applied
to a series. -/
def maskFilter (l : List ℝ) (months : List ℕ) : List ℝ :=
  ((List.range l.length).zip l).filterMap
    (fun ix => if months.contains (monthOfHour ix.1) then some ix.2 else none)

/-- Mean squared difference of two equally long series
(`np.mean((a - b) ** 2)`). -/
noncomputable def meanSqDiff (a b : List ℝ) : ℝ :=
  meanR ((a.zip b).map (fun p => (p.1 - p.2) ^ 2))

/-- The flat metrics mapping returned by
`ValidationSystem.calculate_metrics` (lines 117-148). -/
structure Metrics where
  rmse : ℝ
  mae : ℝ
  ratio_means : ℝ
  winter_mse : ℝ
  summer_mse : ℝ
  seasonal_bias : ℝ

/-- Model of `ValidationSystem.calculate_metrics` (lines 96-152).  The state
fields `hydro_data` / `simulation_results` are `none` when the corresponding
`load_*` call has not succeeded; the guard of lines 99-100 then raises and
the method returns `None`.  Series of different lengths also return `none`:
the boolean winter/summer mask is built from the reference index (length of
`hydro`) and indexing the simulated series with a mask of a different length
raises inside the `try:`, which the method turns into `None`.  For equal
lengths the position-wise operations below are exactly the pandas operations
on the shared synthetic index. -/
noncomputable def calculate_metrics (hydro sim : Option (List ℝ)) : Option Metrics :=
  match hydro, sim with
  | some h, some s =>
    if h.length = s.length then
      let winterH := maskFilter h [12, 1, 2]
      let winterS := maskFilter s [12, 1, 2]
      let summerH := maskFilter h [6, 7, 8]
      let summerS := maskFilter s [6, 7, 8]
      let winterError := meanSqDiff winterH winterS
      let summerError := meanSqDiff summerH summerS
      some
        { rmse := Real.sqrt (meanSqDiff h s)
          mae := meanR ((h.zip s).map (fun p => |p.1 - p.2|))
          ratio_means := meanR s / meanR h
          winter_mse := winterError
          summer_mse := summerError
          seasonal_bias := |winterError - summerError| }
    else none
  | _, _ => none

/-- Model of `ValidationSystem.calculate_objective_function` (lines 188-221).
`none` models the `float('inf')` returned by the `except` handler (reached
exactly when `calculate_metrics` yields `None`, making line 193 raise).
`x or 1.0` on a float is `1.0` when `x == 0.0` and `x` otherwise, hence the
zero tests on the two normalizers. -/
noncomputable def calculate_objective_function (hydro sim : Option (List ℝ)) : Option ℝ :=
  match calculate_metrics hydro sim, hydro with
  | some m, some h =>
    let hydroMean := meanR h
    let rmseComponent := m.rmse / (if hydroMean = 0 then 1 else hydroMean)
    let ratioComponent := |m.ratio_means - 1|
    let denom := (maxR h - minR h) ^ 2
    let seasonalComponent := m.seasonal_bias / (if denom = 0 then 1 else denom)
    some (35/100 * rmseComponent + 45/100 * ratioComponent + 20/100 * seasonalComponent)
  | _, _ => none

/-- Outcome oracle for one pass of the `while` body of
`CalibrationManager.run_calibration_campaign` (lines 75-128).  Each flag
records whether the corresponding collaborator call succeeds:
`suggestOk = false` models `suggest_parameters` returning `None` or raising
(line 79-80); `prepOk`/`simOk`/`processOk`/`aggOk` are the four staged checks
of `_run_iteration` (lines 141-154); `getResultsOk` is
`get_iteration_results` returning a series rather than `None` (line 157);
`loadOk` is `load_simulation_results` (line 89); `recordRaises` models an
exception inside `sensitivity_analyzer.record_iteration` (line 99, e.g.
`metrics.copy()` when `calculate_metrics` returned `None`).  `params` and
`score` are the suggested vector and the objective score of the iteration
(`calculate_objective_function` never raises).  The visualization and saving
steps (lines 104-121) swallow their own exceptions and do not touch the
optimizer history. -/
structure IterationEnv where
  suggestOk : Bool
  prepOk : Bool
  simOk : Bool
  processOk : Bool
  aggOk : Bool
  getResultsOk : Bool
  loadOk : Bool
  recordRaises : Bool
  params : List (String × ℚ)
  score : ℚ

/-- Campaign state visible to the claims: the optimizer's observation
history (`optimizer.X`, `optimizer.y`), the iteration counter
(`self.current_iteration`) and whether the campaign has terminated as failed
(the outer `except` of lines 133-135, reachable only from setup failures
before the loop). -/
structure CampaignState where
  X : List (List ℚ)
  y : List ℚ
  iteration : ℕ
  failed : Bool

/-- Model of `CalibrationManager._run_iteration` (lines 137-161) composed
with the `get_iteration_results` call of its step 5: `true` iff every staged
check passes, i.e. iff `simulation_results` at line 83 is not `None`. -/
def runIterationOk (env : IterationEnv) : Bool :=
  env.prepOk && env.simOk && env.processOk && env.aggOk && env.getResultsOk

/-- One pass of the `while` body of
`CalibrationManager.run_calibration_campaign` (lines 75-128).  Every failure
path (`raise` caught by the inner `except` at lines 125-128, or an explicit
`continue`) advances `current_iteration` by one and leaves the optimizer
history untouched; only the full success path reaches
`self.optimizer.update(current_params, score)` at line 102. -/
def runOneIteration (st : CampaignState) (env : IterationEnv) : CampaignState :=
  if !env.suggestOk then
    { st with iteration := st.iteration + 1 }
  else if !runIterationOk env then
    { st with iteration := st.iteration + 1 }
  else if !env.loadOk then
    { st with iteration := st.iteration + 1 }
  else if env.recordRaises then
    { st with iteration := st.iteration + 1 }
  else
    let h := optimizerUpdate st.X st.y env.params env.score
    { st with X := h.1, y := h.2, iteration := st.iteration + 1 }

/-- Bounds of every declared parameter are ordered. -/
theorem bayesian_lo_le_hi : ∀ p ∈ bayesianParameters, p.lo ≤ p.hi := by
  intro p hp
  fin_cases hp <;> norm_num

/-- Clipping lands inside the bounds whenever they are ordered. -/
theorem clip_mem_Icc (x lo hi : ℚ) (h : lo ≤ hi) : lo ≤ clip x lo hi ∧ clip x lo hi ≤ hi :=
  ⟨le_min (le_max_right x lo) h, min_le_right _ _⟩

/-- C10: whenever fewer than 3 observations have been recorded,
`suggest_parameters` samples each declared parameter independently from its
prior (the normal draw clipped to bounds) and never consults the Gaussian
Process — the result is identical for any two GP oracles.  The method does
not modify the observation history, so three `suggest` calls with no
`update` in between all see `X.length = 0 < 3` and all take this branch. -/
theorem suggest_warmup_no_gp (X : List (List ℚ)) (y : List ℚ) (draws : String → ℚ)
    (units : List (List ℚ)) (g g' : GPOracle) (h : X.length < 3) :
    suggest_parameters X y draws units g =
      bayesianParameters.map (fun p => (p.name, p.sample (draws p.name))) ∧
    suggest_parameters X y draws units g = suggest_parameters X y draws units g' := by
  constructor <;> simp [suggest_parameters, if_pos h, randomSample]

/-- Witness for `suggest_warmup_no_gp` at the empty history. -/
theorem suggest_warmup_no_gp_witness :
    suggest_parameters [] [] (fun _ => 0) [] ⟨fun _ => 0, fun _ => 0, fun _ => 0, fun _ => 0, false⟩ =
      bayesianParameters.map (fun p => (p.name, p.sample 0)) ∧
    suggest_parameters [] [] (fun _ => 0) [] ⟨fun _ => 0, fun _ => 0, fun _ => 0, fun _ => 0, false⟩ =
      suggest_parameters [] [] (fun _ => 0) [] ⟨fun _ => 1, fun _ => 1, fun _ => 1, fun _ => 1, true⟩ :=
  suggest_warmup_no_gp [] [] (fun _ => 0) []
    ⟨fun _ => 0, fun _ => 0, fun _ => 0, fun _ => 0, false⟩
    ⟨fun _ => 1, fun _ => 1, fun _ => 1, fun _ => 1, true⟩ (by decide)

/-- C8: after warm-up, if the GP prediction or candidate search raises,
`suggest_parameters` returns the `_random_sample` fallback — one prior draw
per parameter clipped to bounds — instead of propagating the exception. -/
theorem suggest_gp_failure_fallback (X : List (List ℚ)) (y : List ℚ) (draws : String → ℚ)
    (units : List (List ℚ)) (g : GPOracle) (h3 : 3 ≤ X.length) (hr : g.raises = true) :
    suggest_parameters X y draws units g =
      bayesianParameters.map (fun p => (p.name, p.sample (draws p.name))) := by
  simp [suggest_parameters, Nat.not_lt.mpr h3, hr, randomSample]

/-- Witness for `suggest_gp_failure_fallback`: three recorded observations
and a raising GP oracle. -/
theorem suggest_gp_failure_fallback_witness :
    suggest_parameters [[1], [2], [3]] [1, 2, 3] (fun _ => 0) []
      ⟨fun _ => 0, fun _ => 0, fun _ => 0, fun _ => 0, true⟩ =
      bayesianParameters.map (fun p => (p.name, p.sample 0)) :=
  suggest_gp_failure_fallback [[1], [2], [3]] [1, 2, 3] (fun _ => 0) []
    ⟨fun _ => 0, fun _ => 0, fun _ => 0, fun _ => 0, true⟩ (by decide) rfl

/-- C2: `check_convergence` is `false` whenever fewer than 5 observations
exist, and it returns `true` only when the trailing-window conditions all
hold: population variance of the last 3 scores below `0.01 ^ 2` (the squared
form of the standard-deviation threshold 0.01), the variance of every
parameter coordinate over the last 3 vectors below the same squared
threshold, and the minimum of the last 3 scores not strictly below the
minimum of all earlier scores. -/
theorem check_convergence_gate (X : List (List ℚ)) (y : List ℚ) :
    (X.length < 5 → check_convergence X y = false) ∧
    (check_convergence X y = true →
      popVar (y.drop (y.length - 3)) < (1/100) ^ 2 ∧
      (∀ j < ((X.drop (X.length - 3)).headD []).length,
        popVar (column (X.drop (X.length - 3)) j) < (1/100) ^ 2) ∧
      ¬ minD (y.drop (y.length - 3)) < minD (y.take (y.length - 3))) := by
  constructor
  · intro h5
    simp [check_convergence, if_pos h5]
  · intro htrue
    by_cases h5 : X.length < 5
    · simp [check_convergence, if_pos h5] at htrue
    · simp only [check_convergence, if_neg h5, Bool.and_eq_true] at htrue
      obtain ⟨⟨hscore, hparams⟩, himp⟩ := htrue
      refine ⟨of_decide_eq_true hscore, ?_, ?_⟩
      · intro j hj
        exact of_decide_eq_true (List.all_eq_true.mp hparams j (List.mem_range.mpr hj))
      · by_cases h3 : 3 < y.length
        · rw [if_pos h3] at himp
          exact of_decide_eq_false (by simpa using himp)
        · rw [if_neg h3] at himp
          simp at himp

/-- Witness for `check_convergence_gate`: the gate clause at a 0-observation
history, and the conjunction clause at a 5-observation history that does
converge (stable scores `[5, 5, 5]`, constant parameter vectors, no trailing
improvement over the earlier scores `[10, 0]`). -/
theorem check_convergence_gate_witness :
    check_convergence [] [1] = false ∧
    (popVar (([10, 0, 5, 5, 5] : List ℚ).drop (([10, 0, 5, 5, 5] : List ℚ).length - 3)) < (1/100) ^ 2 ∧
      (∀ j < ((([[1, 1], [1, 1], [1, 1], [1, 1], [1, 1]] : List (List ℚ)).drop
          (([[1, 1], [1, 1], [1, 1], [1, 1], [1, 1]] : List (List ℚ)).length - 3)).headD []).length,
        popVar (column (([[1, 1], [1, 1], [1, 1], [1, 1], [1, 1]] : List (List ℚ)).drop
          (([[1, 1], [1, 1], [1, 1], [1, 1], [1, 1]] : List (List ℚ)).length - 3)) j) < (1/100) ^ 2) ∧
      ¬ minD (([10, 0, 5, 5, 5] : List ℚ).drop (([10, 0, 5, 5, 5] : List ℚ).length - 3)) <
        minD (([10, 0, 5, 5, 5] : List ℚ).take (([10, 0, 5, 5, 5] : List ℚ).length - 3))) := by
  constructor
  · exact (check_convergence_gate [] [1]).1 (by decide)
  · refine (check_convergence_gate [[1, 1], [1, 1], [1, 1], [1, 1], [1, 1]] [10, 0, 5, 5, 5]).2 ?_
    norm_num [check_convergence, popVar, listMean, column, minD, List.range_succ]

/-- Unfolding lemma for the padding loop: on a non-empty series it appends
copies of the last value until the series reaches 8760 entries. -/
theorem padToTarget_spec (n : ℕ) : ∀ s : List ℚ, 8760 - s.length ≤ n → s ≠ [] →
    padToTarget s = s ++ List.replicate (8760 - s.length) (s.getLastD 0) := by
  induction n with
  | zero =>
    intro s h _
    rw [padToTarget]
    have hge : ¬ s.length < 8760 := by omega
    have h0 : 8760 - s.length = 0 := by omega
    simp [hge, h0]
  | succ n ih =>
    intro s h hne
    rw [padToTarget]
    by_cases hl : s.length < 8760
    · rw [if_pos hl]
      have hrec := ih (s ++ [s.getLastD 0]) (by simp; omega) (by simp)
      rw [hrec]
      have hlast : (s ++ [s.getLastD 0]).getLastD 0 = s.getLastD 0 := by simp
      rw [hlast, List.append_assoc]
      congr 1
      have hsplit : 8760 - s.length = (8760 - (s ++ [s.getLastD 0]).length) + 1 := by
        simp
        omega
      rw [hsplit, List.replicate_succ]
      simp
    · rw [if_neg hl]
      have h0 : 8760 - s.length = 0 := by omega
      simp [h0]

/-- C6: the length-normalization step of `_process_results_file` returns a
series of exactly 8760 rows unchanged, truncates a longer series to its first
8760 rows, and extends a non-empty shorter series to exactly 8760 rows by
repeating its last value. -/
theorem normalize_hours_spec (s : List ℚ) :
    (s.length = 8760 → normalizeHours s = s) ∧
    (8760 < s.length → normalizeHours s = s.take 8760) ∧
    (s ≠ [] → s.length < 8760 →
      normalizeHours s = s ++ List.replicate (8760 - s.length) (s.getLastD 0)) := by
  refine ⟨fun h => by simp [normalizeHours, h], fun h => ?_, fun hne h => ?_⟩
  · have hne8760 : s.length ≠ 8760 := by omega
    simp [normalizeHours, hne8760, h]
  · have hne8760 : s.length ≠ 8760 := by omega
    have hnl : ¬ 8760 < s.length := by omega
    simp only [normalizeHours, hne8760, if_false, hnl]
    exact padToTarget_spec (8760 - s.length) s le_rfl hne

/-- Witness for `normalize_hours_spec` on all three branches: an 8760-length
constant series round-trips, an 8761-length series is truncated, and the
singleton series `[5]` is padded with its last value. -/
theorem normalize_hours_spec_witness :
    normalizeHours (List.replicate 8760 (0 : ℚ)) = List.replicate 8760 (0 : ℚ) ∧
    normalizeHours (List.replicate 8761 (0 : ℚ)) = (List.replicate 8761 (0 : ℚ)).take 8760 ∧
    normalizeHours [(5 : ℚ)] = [(5 : ℚ)] ++
      List.replicate (8760 - [(5 : ℚ)].length) ([(5 : ℚ)].getLastD 0) :=
  ⟨(normalize_hours_spec (List.replicate 8760 (0 : ℚ))).1 (by rw [List.length_replicate]),
   (normalize_hours_spec (List.replicate 8761 (0 : ℚ))).2.1
     (by rw [List.length_replicate]; omega),
   (normalize_hours_spec [(5 : ℚ)]).2.2 (by simp) (by norm_num)⟩

/-- C9: in every loop pass of `run_calibration_campaign` in which a stage
fails (preparation, simulation, result processing, aggregation, result
retrieval or loading) or a per-iteration exception occurs (a `None`
suggestion, an exception while recording the iteration), `optimizer.update`
is not reached: the observation history `X`/`y` is unchanged, the campaign
is not marked failed, and the iteration counter still advances by one. -/
theorem skipped_iteration_preserves_history (st : CampaignState) (env : IterationEnv)
    (h : env.suggestOk = false ∨ runIterationOk env = false ∨ env.loadOk = false ∨
      env.recordRaises = true) :
    (runOneIteration st env).X = st.X ∧ (runOneIteration st env).y = st.y ∧
    (runOneIteration st env).failed = st.failed ∧
    (runOneIteration st env).iteration = st.iteration + 1 := by
  rcases h with h | h | h | h
  · simp [runOneIteration, h]
  · by_cases hs : env.suggestOk <;> simp [runOneIteration, hs, h]
  · by_cases hs : env.suggestOk <;> by_cases hr : runIterationOk env <;>
      simp [runOneIteration, hs, hr, h]
  · by_cases hs : env.suggestOk <;> by_cases hr : runIterationOk env <;>
      by_cases hl : env.loadOk <;> simp [runOneIteration, hs, hr, hl, h]

/-- Witness for `skipped_iteration_preserves_history`: a failed simulation
stage in the middle of a campaign with one prior observation. -/
theorem skipped_iteration_witness :
    (runOneIteration ⟨[[1]], [2], 7, false⟩
        ⟨true, true, false, true, true, true, true, false, [], 0⟩).X = [[1]] ∧
    (runOneIteration ⟨[[1]], [2], 7, false⟩
        ⟨true, true, false, true, true, true, true, false, [], 0⟩).y = [2] ∧
    (runOneIteration ⟨[[1]], [2], 7, false⟩
        ⟨true, true, false, true, true, true, true, false, [], 0⟩).failed = false ∧
    (runOneIteration ⟨[[1]], [2], 7, false⟩
        ⟨true, true, false, true, true, true, true, false, [], 0⟩).iteration = 7 + 1 :=
  skipped_iteration_preserves_history ⟨[[1]], [2], 7, false⟩
    ⟨true, true, false, true, true, true, true, false, [], 0⟩ (Or.inr (Or.inl rfl))

/-- The running index bound of the `argmax` loop. -/
theorem idxOfMaxAux_lt (xs : List ℚ) : ∀ (best : ℕ) (bv : ℚ) (i : ℕ), best < i →
    idxOfMaxAux best bv i xs < i + xs.length := by
  induction xs with
  | nil =>
    intro best bv i h
    simpa [idxOfMaxAux] using h
  | cons x xs ih =>
    intro best bv i h
    rw [idxOfMaxAux]
    by_cases hc : bv < x
    · rw [if_pos hc]
      have := ih i x (i + 1) (by omega)
      simpa [Nat.add_comm, Nat.add_left_comm] using this
    · rw [if_neg hc]
      have := ih best bv (i + 1) (by omega)
      simpa [Nat.add_comm, Nat.add_left_comm] using this

/-- `np.argmax` of a non-empty list is a valid index. -/
theorem idxOfMax_lt (xs : List ℚ) (h : xs ≠ []) : idxOfMax xs < xs.length := by
  match xs, h with
  | x :: xs, _ =>
    have := idxOfMaxAux_lt xs 0 x 1 (by omega)
    simpa [idxOfMax, Nat.add_comm] using this

/-- Zipping the parameter names with a scaled grid row pairs each scaled
coordinate with the parameter it was scaled for. -/
theorem zip_names_scale : ∀ (us : List ℚ) (ps : List Parameter), us.length = ps.length →
    (ps.map (fun p => p.name)).zip
        ((us.zip ps).map (fun up => up.1 * (up.2.hi - up.2.lo) + up.2.lo)) =
      (us.zip ps).map (fun up => (up.2.name, up.1 * (up.2.hi - up.2.lo) + up.2.lo)) := by
  intro us
  induction us with
  | nil => intro ps h; simp
  | cons u us ih =>
    intro ps h
    match ps with
    | [] => simp at h
    | p :: ps =>
      simp only [List.zip_cons_cons, List.map_cons]
      rw [ih ps (by simpa using h)]

/-- C1: every parameter value returned by `suggest_parameters` lies within
the declared bounds of its parameter, in the warm-up branch (prior draws
clipped to bounds), in the exception-fallback branch (`_random_sample`,
also clipped), and in the GP / Expected-Improvement branch (a row of the
candidate grid, whose coordinates are unit Latin-Hypercube samples rescaled
into `[low, high]`). -/
theorem suggest_parameters_within_bounds (X : List (List ℚ)) (y : List ℚ)
    (draws : String → ℚ) (units : List (List ℚ)) (g : GPOracle) (nv : String × ℚ)
    (hne : units ≠ [])
    (hrows : ∀ row ∈ units, row.length = bayesianParameters.length ∧
      ∀ u ∈ row, 0 ≤ u ∧ u ≤ 1)
    (hmem : nv ∈ suggest_parameters X y draws units g) :
    ∃ p ∈ bayesianParameters, nv.1 = p.name ∧ p.lo ≤ nv.2 ∧ nv.2 ≤ p.hi := by
  have fromSample : nv ∈ randomSample draws →
      ∃ p ∈ bayesianParameters, nv.1 = p.name ∧ p.lo ≤ nv.2 ∧ nv.2 ≤ p.hi := by
    intro hs
    obtain ⟨p, hp, heq⟩ := List.mem_map.mp hs
    have hc := clip_mem_Icc (draws p.name) p.lo p.hi (bayesian_lo_le_hi p hp)
    exact ⟨p, hp, by rw [← heq], by rw [← heq]; exact hc.1, by rw [← heq]; exact hc.2⟩
  unfold suggest_parameters at hmem
  by_cases h3 : X.length < 3
  · exact fromSample (by rwa [if_pos h3] at hmem)
  · rw [if_neg h3] at hmem
    by_cases hr : g.raises
    · exact fromSample (by rwa [if_pos hr] at hmem)
    · rw [if_neg hr] at hmem
      simp only at hmem
      have hglen : (createParameterGrid units).length = units.length :=
        List.length_map units scaleRow
      have heilen :
          (eiScores g (minD y) (createParameterGrid units).length).length =
            (createParameterGrid units).length := by
        simp [eiScores]
      have heine : eiScores g (minD y) (createParameterGrid units).length ≠ [] := by
        intro hnil
        apply hne
        have h0 : (createParameterGrid units).length = 0 := by
          rw [← heilen, hnil, List.length_nil]
        rw [hglen] at h0
        exact List.length_eq_zero.mp h0
      have hbi : idxOfMax (eiScores g (minD y) (createParameterGrid units).length) <
          (createParameterGrid units).length := by
        have hx := idxOfMax_lt _ heine
        rw [heilen] at hx
        exact hx
      have hrowmem : (createParameterGrid units).getD
          (idxOfMax (eiScores g (minD y) (createParameterGrid units).length)) [] ∈
          createParameterGrid units := by
        rw [List.getD_eq_getElem _ _ hbi]
        exact List.getElem_mem hbi
      obtain ⟨urow, hurow, hrow⟩ := List.mem_map.mp hrowmem
      rw [← hrow] at hmem
      unfold scaleRow at hmem
      rw [zip_names_scale urow bayesianParameters (hrows urow hurow).1] at hmem
      obtain ⟨⟨u, p⟩, hup, heq⟩ := List.mem_map.mp hmem
      have hu : u ∈ urow := (List.of_mem_zip hup).1
      have hp : p ∈ bayesianParameters := (List.of_mem_zip hup).2
      obtain ⟨h0, h1⟩ := (hrows urow hurow).2 u hu
      have hlh := bayesian_lo_le_hi p hp
      refine ⟨p, hp, by rw [← heq], ?_, ?_⟩
      · rw [← heq]
        have := mul_nonneg h0 (sub_nonneg.mpr hlh)
        simp only
        linarith
      · rw [← heq]
        have := mul_le_of_le_one_left (sub_nonneg.mpr hlh) h1
        simp only
        linarith

/-- Witness for `suggest_parameters_within_bounds`: the warm-up branch at an
empty history, with a one-row unit grid of midpoint samples and the
all-zeros draw; the first returned pair is the first parameter clipped to
its bounds. -/
theorem suggest_parameters_within_bounds_witness :
    ∃ p ∈ bayesianParameters,
      (("heating_system_efficiency", clip 0 (90/100) (95/100)) : String × ℚ).1 = p.name ∧
      p.lo ≤ (("heating_system_efficiency", clip 0 (90/100) (95/100)) : String × ℚ).2 ∧
      (("heating_system_efficiency", clip 0 (90/100) (95/100)) : String × ℚ).2 ≤ p.hi :=
  suggest_parameters_within_bounds [] [] (fun _ => 0) [List.replicate 5 (1/2)]
    ⟨fun _ => 0, fun _ => 0, fun _ => 0, fun _ => 0, false⟩
    ("heating_system_efficiency", clip 0 (90/100) (95/100))
    (by simp)
    (by
      intro row hrow
      simp only [List.mem_singleton] at hrow
      subst hrow
      refine ⟨by simp [bayesianParameters], ?_⟩
      intro u hu
      rw [List.eq_of_mem_replicate hu]
      norm_num)
    (by simp [suggest_parameters, randomSample, bayesianParameters, Parameter.sample])

/-- Folding step used to describe the aggregation accumulator: absorb one
weighted series into the optional running sum. -/
def optAdd (acc : Option (List ℚ)) (s : List ℚ) : Option (List ℚ) :=
  match acc with
  | none => some s
  | some p => some (addFill p s)

/-- The aggregation loop folds exactly the available weighted series into
the accumulator and counts them. -/
theorem aggLoop_eq_foldl (res : String → Option (List ℚ)) :
    ∀ (w : List (String × ℚ)) (acc : Option (List ℚ)) (c : ℕ),
      aggLoop res w acc c =
        ((weightedAvailable w res).foldl optAdd acc, c + (weightedAvailable w res).length) := by
  intro w
  induction w with
  | nil => intro acc c; simp [aggLoop, weightedAvailable]
  | cons nw rest ih =>
    intro acc c
    obtain ⟨n, wt⟩ := nw
    rw [aggLoop]
    cases hres : res n with
    | none =>
      dsimp only
      rw [ih acc c]
      simp [weightedAvailable, hres]
    | some s =>
      cases acc with
      | none =>
        dsimp only
        rw [ih (some (s.map (fun x => x * wt))) (c + 1)]
        simp only [weightedAvailable, List.filterMap_cons, hres, Option.map_some']
        simp [optAdd]
        omega
      | some p =>
        dsimp only
        rw [ih (some (addFill p (s.map (fun x => x * wt)))) (c + 1)]
        simp only [weightedAvailable, List.filterMap_cons, hres, Option.map_some']
        simp [optAdd]
        omega

/-- Folding `optAdd` from `none` sums the list from its head. -/
theorem foldl_optAdd_from_none :
    ∀ (l : List (List ℚ)) (a : List ℚ), l.foldl optAdd (some a) = some (l.foldl addFill a) := by
  intro l
  induction l with
  | nil => intro a; rfl
  | cons s rest ih => intro a; rw [List.foldl_cons, List.foldl_cons]; exact ih (addFill a s)

/-- C5 (amended): `aggregate_provincial_results` refines the amended
aggregation contract: a building whose output series is unavailable is simply
excluded from the weighted sum (never added as a zero series), the processed
count is the number of available series, and the reported success rate is the
percentage `(processed / total) * 100`. -/
theorem aggregate_refines_specification (weights : List (String × ℚ))
    (res : String → Option (List ℚ)) :
    aggregate_provincial_results weights res = aggregateSpecification weights res := by
  unfold aggregate_provincial_results aggregateSpecification
  rw [aggLoop_eq_foldl res weights none 0]
  cases havail : weightedAvailable weights res with
  | nil => simp
  | cons a rest =>
    rw [List.foldl_cons]
    show (match (rest.foldl optAdd (some a), 0 + (a :: rest).length) with
      | (none, _) => none
      | (some p, c) => some (p, c, weights.length, ((c : ℚ) / (weights.length : ℚ)) * 100)) = _
    rw [foldl_optAdd_from_none rest a]
    simp

/-- C5 counterexample: five equally weighted buildings, the third has no
output.  The aggregated series excludes the failed building (sum of the four
available series `[2, 2]`), but the reported `success_rate` metadata is the
percentage `80`, not the ratio `0.8 = 4/5` that the claim states. -/
theorem success_rate_percent_counterexample :
    aggregate_provincial_results
        [("b1", 1), ("b2", 1), ("b3", 1), ("b4", 1), ("b5", 1)]
        (fun n => if n = "b3" then none else some [2, 2]) =
      some ([8, 8], 4, 5, 80) ∧ (80 : ℚ) ≠ 4 / 5 := by
  constructor
  · simp [aggregate_provincial_results, aggLoop, addFill]
    norm_num
  · norm_num

/-- Assigning a key that is not yet in the dictionary appends it. -/
theorem insertOverwrite_fresh (d : List (String × ℚ)) (k : String) (v : ℚ)
    (h : ∀ kv ∈ d, kv.1 ≠ k) : insertOverwrite d k v = d ++ [(k, v)] := by
  unfold insertOverwrite
  rw [if_neg]
  intro hany
  obtain ⟨kv, hkv, heq⟩ := List.any_eq_true.mp hany
  exact h kv hkv (by simpa using heq)

/-- A weight-assignment pass on a fresh filename appends exactly the pair
`(filename, weightOfArch ...)`. -/
theorem weightStep_append (sel : List Archetype) (res : List String)
    (d : List (String × ℚ)) (a : Archetype)
    (hsome : (findMainType a.houseSubType).isSome = true)
    (hfresh : ∀ kv ∈ d, kv.1 ≠ a.filename) :
    weightStep sel res d a = d ++ [(a.filename, weightOfArch sel res a)] := by
  unfold weightStep weightOfArch
  cases hmt : findMainType a.houseSubType with
  | none => rw [hmt] at hsome; simp at hsome
  | some mt =>
    by_cases hc : 0 < archCount sel mt
    · simp only [hc, if_true, insertOverwrite_fresh d _ _ hfresh]
    · simp only [hc, if_false, insertOverwrite_fresh d _ _ hfresh]

/-- The weight-building fold, started from any accumulator whose keys avoid
the remaining filenames, appends one entry per archetype. -/
theorem foldl_weightStep_append (sel : List Archetype) (res : List String) :
    ∀ (l : List Archetype) (acc : List (String × ℚ)),
      (∀ a ∈ l, (findMainType a.houseSubType).isSome = true) →
      (∀ a ∈ l, ∀ kv ∈ acc, kv.1 ≠ a.filename) →
      (l.map (fun a => a.filename)).Nodup →
      l.foldl (weightStep sel res) acc =
        acc ++ l.map (fun a => (a.filename, weightOfArch sel res a)) := by
  intro l
  induction l with
  | nil => intro acc _ _ _; simp
  | cons a l ih =>
    intro acc hsome hfresh hnodup
    rw [List.foldl_cons,
      weightStep_append sel res acc a (hsome a (List.mem_cons_self a l))
        (fun kv hkv => hfresh a (List.mem_cons_self a l) kv hkv)]
    rw [List.map_cons] at hnodup
    obtain ⟨hanotin, hnodup'⟩ := List.nodup_cons.mp hnodup
    rw [ih (acc ++ [(a.filename, weightOfArch sel res a)])
      (fun b hb => hsome b (List.mem_cons_of_mem a hb))
      ?_ hnodup']
    · simp
    · intro b hb kv hkv
      rcases List.mem_append.mp hkv with hacc | hsingle
      · exact hfresh b (List.mem_cons_of_mem a hb) kv hacc
      · rw [List.mem_singleton.mp hsingle]
        intro hcontra
        apply hanotin
        have hab : a.filename = b.filename := hcontra
        rw [hab]
        exact List.mem_map.mpr ⟨b, hb, rfl⟩

/-- Under total class coverage, extracting the class of every archetype
turns the filterMap into a map. -/
theorem filterMap_class_eq_map (sel : List Archetype)
    (h : ∀ a ∈ sel, (findMainType a.houseSubType).isSome = true) :
    sel.filterMap (fun a => findMainType a.houseSubType) =
      sel.map (fun a => (findMainType a.houseSubType).getD "") := by
  induction sel with
  | nil => rfl
  | cons a l ih =>
    have ha := h a (List.mem_cons_self a l)
    cases hmt : findMainType a.houseSubType with
    | none => rw [hmt] at ha; simp at ha
    | some mt =>
      simp only [List.filterMap_cons, hmt, List.map_cons, Option.getD_some]
      rw [ih (fun b hb => h b (List.mem_cons_of_mem a hb))]

/-- Counting the elements of a finset that covers a list recovers the length
of the list. -/
theorem sum_count_eq_length (R : List String) (S : Finset String)
    (hcov : ∀ v ∈ R, v ∈ S) : ∑ c ∈ S, R.count c = R.length := by
  induction R with
  | nil => simp
  | cons x R ih =>
    have hx : x ∈ S := hcov x (List.mem_cons_self x R)
    have hcov' : ∀ v ∈ R, v ∈ S := fun v hv => hcov v (List.mem_cons_of_mem x hv)
    have hcnt : ∀ c : String, (x :: R).count c = R.count c + if x = c then 1 else 0 := by
      intro c
      simp [List.count_cons]
    calc ∑ c ∈ S, (x :: R).count c
        = ∑ c ∈ S, (R.count c + if x = c then 1 else 0) := by
          exact Finset.sum_congr rfl (fun c _ => hcnt c)
      _ = (∑ c ∈ S, R.count c) + ∑ c ∈ S, (if x = c then 1 else 0) :=
          Finset.sum_add_distrib
      _ = R.length + 1 := by
          rw [ih hcov', Finset.sum_ite_eq S x (fun _ => 1), if_pos hx]
      _ = (x :: R).length := by simp

/-- Summing the per-archetype weights over a selection with total class
coverage yields exactly the reference-population size. -/
theorem sum_weightOfArch (sel : List Archetype) (res : List String)
    (h1 : ∀ a ∈ sel, (findMainType a.houseSubType).isSome = true)
    (h2 : ∀ v ∈ res, ∃ a ∈ sel, findMainType a.houseSubType = some v) :
    (sel.map (fun a => weightOfArch sel res a)).sum = (res.length : ℚ) := by
  classical
  have hmap : sel.map (fun a => weightOfArch sel res a) =
      (sel.filterMap (fun a => findMainType a.houseSubType)).map
        (fun c => (typeCount res c : ℚ) /
          ((sel.filterMap (fun a => findMainType a.houseSubType)).count c : ℚ)) := by
    have hptwise : ∀ a ∈ sel, weightOfArch sel res a =
        ((fun c => (typeCount res c : ℚ) /
            ((sel.filterMap (fun b => findMainType b.houseSubType)).count c : ℚ)) ∘
          (fun a => (findMainType a.houseSubType).getD "")) a := by
      intro a ha
      cases hmt : findMainType a.houseSubType with
      | none =>
        have := h1 a ha
        rw [hmt] at this
        simp at this
      | some mt =>
        have hcount : 0 < archCount sel mt := by
          unfold archCount
          exact List.count_pos_iff.mpr (List.mem_filterMap.mpr ⟨a, ha, hmt⟩)
        simp only [Function.comp_apply, hmt, Option.getD_some, weightOfArch, if_pos hcount]
        rfl
    rw [List.map_congr_left hptwise, ← List.map_map, ← filterMap_class_eq_map sel h1]
  rw [hmap, Finset.sum_list_map_count]
  have hstep : ∀ c ∈ (sel.filterMap (fun a => findMainType a.houseSubType)).toFinset,
      (sel.filterMap (fun a => findMainType a.houseSubType)).count c •
        ((typeCount res c : ℚ) /
          ((sel.filterMap (fun a => findMainType a.houseSubType)).count c : ℚ)) =
        (typeCount res c : ℚ) := by
    intro c hc
    have hpos : 0 < (sel.filterMap (fun a => findMainType a.houseSubType)).count c :=
      List.count_pos_iff.mpr (List.mem_toFinset.mp hc)
    have hne : (((sel.filterMap (fun a => findMainType a.houseSubType)).count c : ℕ) : ℚ) ≠ 0 :=
      Nat.cast_ne_zero.mpr hpos.ne'
    rw [nsmul_eq_mul, mul_comm, div_mul_cancel₀ _ hne]
  rw [Finset.sum_congr rfl hstep, ← Nat.cast_sum]
  congr 1
  apply sum_count_eq_length
  intro v hv
  obtain ⟨a, ha, heq⟩ := h2 v hv
  exact List.mem_toFinset.mpr (List.mem_filterMap.mpr ⟨a, ha, heq⟩)

/-- C3: with exact, non-overlapping class coverage (every selected archetype
maps to a class, every population class is represented by at least one
selected archetype, filenames are distinct), `calculate_provincial_weights`
assigns each archetype the weight
`(population count of its class) / (number of selected archetypes of that
class)`, and the total weight matches the population size to well within the
1 percent relative tolerance (the difference is zero). -/
theorem provincial_weights_exact_coverage (sel : List Archetype) (res : List String)
    (h1 : ∀ a ∈ sel, (findMainType a.houseSubType).isSome = true)
    (h2 : ∀ v ∈ res, ∃ a ∈ sel, findMainType a.houseSubType = some v)
    (h3 : (sel.map (fun a => a.filename)).Nodup)
    (h4 : res ≠ []) :
    (∀ a ∈ sel, ∀ c, findMainType a.houseSubType = some c →
      (a.filename, (typeCount res c : ℚ) / (archCount sel c : ℚ)) ∈ calcWeights sel res) ∧
    |sumWeights (calcWeights sel res) - (res.length : ℚ)| / (res.length : ℚ) < 1/100 := by
  have hmap : calcWeights sel res = sel.map (fun a => (a.filename, weightOfArch sel res a)) := by
    unfold calcWeights
    rw [foldl_weightStep_append sel res sel [] h1 (by simp) h3]
    simp
  constructor
  · intro a ha c hc
    rw [hmap]
    refine List.mem_map.mpr ⟨a, ha, ?_⟩
    have hcount : 0 < archCount sel c := by
      unfold archCount
      exact List.count_pos_iff.mpr (List.mem_filterMap.mpr ⟨a, ha, hc⟩)
    simp [weightOfArch, hc, hcount]
  · rw [hmap]
    have hsum : sumWeights (sel.map (fun a => (a.filename, weightOfArch sel res a))) =
        (sel.map (fun a => weightOfArch sel res a)).sum := by
      unfold sumWeights
      rw [List.map_map]
      rfl
    rw [hsum, sum_weightOfArch sel res h1 h2]
    have hlen : (0 : ℚ) < (res.length : ℚ) := by
      have : 0 < res.length := List.length_pos.mpr h4
      exact_mod_cast this
    rw [sub_self, abs_zero, zero_div]
    norm_num

/-- Witness for `provincial_weights_exact_coverage`: two archetypes of two
classes against a three-building reference population with exact coverage. -/
theorem provincial_weights_witness :
    ("a1", (typeCount ["Détaché", "Détaché", "Intégré"] "Détaché" : ℚ) /
        (archCount [⟨"a1", "Single Detached"⟩, ⟨"a2", "Apartment"⟩] "Détaché" : ℚ)) ∈
      calcWeights [⟨"a1", "Single Detached"⟩, ⟨"a2", "Apartment"⟩]
        ["Détaché", "Détaché", "Intégré"] ∧
    |sumWeights (calcWeights [⟨"a1", "Single Detached"⟩, ⟨"a2", "Apartment"⟩]
        ["Détaché", "Détaché", "Intégré"]) -
      ((["Détaché", "Détaché", "Intégré"] : List String).length : ℚ)| /
      ((["Détaché", "Détaché", "Intégré"] : List String).length : ℚ) < 1/100 := by
  have h := provincial_weights_exact_coverage
    [⟨"a1", "Single Detached"⟩, ⟨"a2", "Apartment"⟩] ["Détaché", "Détaché", "Intégré"]
    (by decide) (by decide) (by decide) (by decide)
  exact ⟨h.1 ⟨"a1", "Single Detached"⟩ (List.mem_cons_self _ _) "Détaché" (by decide), h.2⟩

/-- C4 counterexample: exactly one selected building, reference population of
three buildings of its class.  The computed weight is the full class count 3,
not the trivial weight 1.0, and the reference population is consulted. -/
theorem single_building_weight_counterexample :
    calcWeights [⟨"a1", "Single Detached"⟩] ["Détaché", "Détaché", "Détaché"] =
      [("a1", 3)] ∧ (3 : ℚ) ≠ 1 := by
  constructor
  · have hft : findMainType "Single Detached" = some "Détaché" := by decide
    have harch : archCount [⟨"a1", "Single Detached"⟩] "Détaché" = 1 := by decide
    have htc : typeCount ["Détaché", "Détaché", "Détaché"] "Détaché" = 3 := by decide
    norm_num [calcWeights, weightStep, hft, harch, htc, insertOverwrite]
  · norm_num

/-- C4 (amended): when exactly one building is selected there is no special
case — the reference-population lookup still happens and the single archetype
receives the full population count of its class (divided by its archetype
count 1). -/
theorem single_building_weight_amended (a : Archetype) (res : List String) (c : String)
    (hc : findMainType a.houseSubType = some c) :
    calcWeights [a] res = [(a.filename, (typeCount res c : ℚ))] := by
  have harch : archCount [a] c = 1 := by
    unfold archCount
    simp [hc]
  simp [calcWeights, weightStep, hc, harch, insertOverwrite]

/-- Witness for `single_building_weight_amended`: a single apartment
archetype against a one-building reference population. -/
theorem single_building_weight_amended_witness :
    calcWeights [⟨"a1", "Apartment"⟩] ["Intégré"] =
      [("a1", (typeCount ["Intégré"] "Intégré" : ℚ))] :=
  single_building_weight_amended ⟨"a1", "Apartment"⟩ ["Intégré"] "Intégré" (by decide)

/-- The squared differences of a list zipped with itself sum to zero. -/
theorem zip_self_sq_sum_zero (l : List ℝ) :
    ((l.zip l).map (fun p => (p.1 - p.2) ^ 2)).sum = 0 := by
  induction l with
  | nil => rfl
  | cons a l ih => simp [ih]

/-- The mean squared difference of a series with itself is zero. -/
theorem meanSqDiff_self (l : List ℝ) : meanSqDiff l l = 0 := by
  unfold meanSqDiff meanR
  rw [zip_self_sq_sum_zero, zero_div]

/-- Mean of a constant series. -/
theorem meanR_replicate (n : ℕ) (x : ℝ) (hn : n ≠ 0) :
    meanR (List.replicate n x) = x := by
  unfold meanR
  rw [List.sum_replicate, List.length_replicate, nsmul_eq_mul]
  exact mul_div_cancel_left₀ x (Nat.cast_ne_zero.mpr hn)

/-- Folding `max` over copies of the seed returns the seed. -/
theorem foldl_max_replicate (n : ℕ) (x : ℝ) : (List.replicate n x).foldl max x = x := by
  induction n with
  | zero => rfl
  | succ n ih => rw [List.replicate_succ, List.foldl_cons, max_self]; exact ih

/-- Folding `min` over copies of the seed returns the seed. -/
theorem foldl_min_replicate (n : ℕ) (x : ℝ) : (List.replicate n x).foldl min x = x := by
  induction n with
  | zero => rfl
  | succ n ih => rw [List.replicate_succ, List.foldl_cons, min_self]; exact ih

/-- Maximum of a non-empty constant series. -/
theorem maxR_replicate (n : ℕ) (x : ℝ) : maxR (List.replicate (n + 1) x) = x := by
  unfold maxR
  rw [List.replicate_succ, List.foldl_cons]
  simp [foldl_max_replicate]

/-- Minimum of a non-empty constant series. -/
theorem minR_replicate (n : ℕ) (x : ℝ) : minR (List.replicate (n + 1) x) = x := by
  unfold minR
  rw [List.replicate_succ, List.foldl_cons]
  simp [foldl_min_replicate]

/-- C7 counterexample: a degenerate (zero-variance) reference series of 8760
constant values 100, with an identical simulated series.  The objective is
not `float('inf')` (modelled `none`): both normalizers fall back to `1.0`
via the `or 1.0` guards and the returned score is the finite value 0. -/
theorem objective_degenerate_counterexample :
    calculate_objective_function (some (List.replicate 8760 (100 : ℝ)))
        (some (List.replicate 8760 (100 : ℝ))) = some 0 ∧
    (some (0 : ℝ) ≠ (none : Option ℝ)) := by
  constructor
  · have hmean : meanR (List.replicate 8760 (100 : ℝ)) = 100 :=
      meanR_replicate 8760 100 (by norm_num)
    have hmax : maxR (List.replicate 8760 (100 : ℝ)) = 100 := by
      rw [(by norm_num : (8760 : ℕ) = 8759 + 1)]
      exact maxR_replicate 8759 100
    have hmin : minR (List.replicate 8760 (100 : ℝ)) = 100 := by
      rw [(by norm_num : (8760 : ℕ) = 8759 + 1)]
      exact minR_replicate 8759 100
    simp only [calculate_objective_function, calculate_metrics, if_pos rfl]
    norm_num [hmean, hmax, hmin, meanSqDiff_self, Real.sqrt_zero]
  · simp

/-- C7 (amended): the objective never raises in the model; it returns
`float('inf')` (`none`) exactly when the reference or simulated series is
missing, and for present equal-length series it returns the finite weighted
composite `0.35 * rmse/mean + 0.45 * |ratio - 1| + 0.20 * bias/range²`,
where a zero mean or zero range normalizer falls back to `1.0` — degenerate
inputs therefore yield a finite score, not `inf`. -/
theorem objective_inf_only_when_missing (hydro sim : Option (List ℝ)) :
    ((hydro = none ∨ sim = none) → calculate_objective_function hydro sim = none) ∧
    (∀ h s, hydro = some h → sim = some s → h.length = s.length →
      calculate_objective_function hydro sim =
        some (35/100 * (Real.sqrt (meanSqDiff h s) / (if meanR h = 0 then 1 else meanR h)) +
          45/100 * |meanR s / meanR h - 1| +
          20/100 * (|meanSqDiff (maskFilter h [12, 1, 2]) (maskFilter s [12, 1, 2]) -
              meanSqDiff (maskFilter h [6, 7, 8]) (maskFilter s [6, 7, 8])| /
            (if (maxR h - minR h) ^ 2 = 0 then 1 else (maxR h - minR h) ^ 2))) ∧
      calculate_objective_function hydro sim ≠ none) := by
  constructor
  · rintro (rfl | rfl)
    · cases sim <;> rfl
    · cases hydro <;> rfl
  · intro h s hh hs hlen
    subst hh
    subst hs
    constructor
    · simp only [calculate_objective_function, calculate_metrics, if_pos hlen]
    · simp only [calculate_objective_function, calculate_metrics, if_pos hlen]
      simp

/-- Witness for `objective_inf_only_when_missing`: a missing reference gives
`none` (the `inf` marker) and a present constant pair gives a finite score. -/
theorem objective_inf_witness :
    calculate_objective_function (none : Option (List ℝ)) (some [100]) = none ∧
    calculate_objective_function (some [(100 : ℝ)]) (some [100]) ≠ none :=
  ⟨(objective_inf_only_when_missing none (some [100])).1 (Or.inl rfl),
   ((objective_inf_only_when_missing (some [(100 : ℝ)]) (some [100])).2
     [100] [100] rfl rfl rfl).2⟩
